import Mathlib

/-!
Shallow embedding of the call-lifecycle orchestration engine of the voice
interview backend (src/backend/main.py, src/backend/models.py).

Pure data is translated directly; the redis progress cache and the durable
Interview row become explicit state records threaded through the webhook
handlers; the generative-text capability and the transcription capability
are passed in as function parameters; Python exceptions (IndexError on an
out-of-range question access) become `Except.error`.
-/

/-- JSON values, modelling the results of Python `json.loads`.  Numeric
values are modelled as integers (fractional digits are consumed but
discarded, exponents are not modelled); no verified property depends on
numeric content. -/
inductive JsonVal where
  | null : JsonVal
  | bool (b : Bool) : JsonVal
  | num (n : Int) : JsonVal
  | str (s : String) : JsonVal
  | arr (items : List JsonVal) : JsonVal
  | obj (fields : List (String × JsonVal)) : JsonVal

/-- Drop leading JSON whitespace. -/
def skip_ws : List Char → List Char
  | [] => []
  | c :: cs => if c = ' ' ∨ c = '\n' ∨ c = '\t' ∨ c = '\r' then skip_ws cs else c :: cs

/-- Parse the remainder of a JSON string literal (the opening quote has
been consumed), handling the basic escape sequences. -/
def parse_string_aux : List Char → List Char → Option (String × List Char)
  | _, [] => none
  | acc, c :: cs =>
    if c = '"' then some (String.mk acc.reverse, cs)
    else if c = '\\' then
      match cs with
      | [] => none
      | e :: cs2 =>
        let d := if e = 'n' then '\n' else if e = 't' then '\t' else if e = 'r' then '\r' else e
        parse_string_aux (d :: acc) cs2
    else parse_string_aux (c :: acc) cs

/-- Split a leading run of decimal digits from the rest. -/
def span_digits : List Char → List Char × List Char
  | [] => ([], [])
  | c :: cs =>
    if c.isDigit then
      let p := span_digits cs
      (c :: p.1, p.2)
    else ([], c :: cs)

/-- Numeric value of a digit run. -/
def digits_val (ds : List Char) : Nat :=
  ds.foldl (fun acc c => acc * 10 + (c.toNat - 48)) 0

/-- Parse a JSON number (integer part only is retained). -/
def parse_number (cs : List Char) : Option (JsonVal × List Char) :=
  match cs with
  | '-' :: rest =>
    match span_digits rest with
    | ([], _) => none
    | (ds, rest2) =>
      match rest2 with
      | '.' :: rest3 => some (.num (-(digits_val ds : Int)), (span_digits rest3).2)
      | _ => some (.num (-(digits_val ds : Int)), rest2)
  | _ =>
    match span_digits cs with
    | ([], _) => none
    | (ds, rest2) =>
      match rest2 with
      | '.' :: rest3 => some (.num (digits_val ds), (span_digits rest3).2)
      | _ => some (.num (digits_val ds), rest2)

mutual

/-- Fuel-indexed JSON value parsing, modelling Python `json.loads`. -/
def parse_value : Nat → List Char → Option (JsonVal × List Char)
  | 0, _ => none
  | fuel + 1, cs =>
    match skip_ws cs with
    | [] => none
    | c :: rest =>
      if c = '"' then
        match parse_string_aux [] rest with
        | some (s, r) => some (.str s, r)
        | none => none
      else if c = '\x7b' then
        match skip_ws rest with
        | '\x7d' :: r => some (.obj [], r)
        | r2 => parse_obj_fields fuel r2 []
      else if c = '[' then
        match skip_ws rest with
        | ']' :: r => some (.arr [], r)
        | r2 => parse_arr_items fuel r2 []
      else if c = 't' then
        match rest with
        | 'r' :: 'u' :: 'e' :: r => some (.bool true, r)
        | _ => none
      else if c = 'f' then
        match rest with
        | 'a' :: 'l' :: 's' :: 'e' :: r => some (.bool false, r)
        | _ => none
      else if c = 'n' then
        match rest with
        | 'u' :: 'l' :: 'l' :: r => some (.null, r)
        | _ => none
      else parse_number (c :: rest)

/-- Comma-separated array items after the first has started. -/
def parse_arr_items : Nat → List Char → List JsonVal → Option (JsonVal × List Char)
  | 0, _, _ => none
  | fuel + 1, cs, acc =>
    match parse_value fuel cs with
    | none => none
    | some (v, r) =>
      match skip_ws r with
      | ',' :: r2 => parse_arr_items fuel r2 (acc ++ [v])
      | ']' :: r2 => some (.arr (acc ++ [v]), r2)
      | _ => none

/-- Comma-separated object fields after the opening brace. -/
def parse_obj_fields : Nat → List Char → List (String × JsonVal) → Option (JsonVal × List Char)
  | 0, _, _ => none
  | fuel + 1, cs, acc =>
    match skip_ws cs with
    | '"' :: r =>
      match parse_string_aux [] r with
      | none => none
      | some (key, r2) =>
        match skip_ws r2 with
        | ':' :: r3 =>
          match parse_value fuel r3 with
          | none => none
          | some (v, r4) =>
            match skip_ws r4 with
            | ',' :: r5 => parse_obj_fields fuel r5 (acc ++ [(key, v)])
            | '\x7d' :: r5 => some (.obj (acc ++ [(key, v)]), r5)
            | _ => none
        | _ => none
    | _ => none

end

/-- Model of Python `json.loads`: parse one value, require only whitespace
after it. -/
def json_loads (s : String) : Option JsonVal :=
  match parse_value (s.length + 1) s.toList with
  | some (v, rest) => if skip_ws rest = [] then some v else none
  | none => none

/-- Index of the first occurrence of a character in a list. -/
def char_find (c : Char) : List Char → Option Nat
  | [] => none
  | x :: xs =>
    if x = c then some 0
    else
      match char_find c xs with
      | some n => some (n + 1)
      | none => none

/-- Python `str.find` for a single character: first index or -1. -/
def py_find (s : String) (c : Char) : Int :=
  match char_find c s.toList with
  | some n => n
  | none => -1

/-- Python `str.rfind` for a single character: last index or -1. -/
def py_rfind (s : String) (c : Char) : Int :=
  match char_find c s.toList.reverse with
  | some n => (s.length : Int) - 1 - n
  | none => -1

/-- Python slicing `s[a:b]` with negative-index normalisation and clamping. -/
def py_slice (s : String) (start stop : Int) : String :=
  let n : Int := s.length
  let a := if start < 0 then max (n + start) 0 else min start n
  let b := if stop < 0 then max (n + stop) 0 else min stop n
  String.mk ((s.toList.drop a.toNat).take (b - a).toNat)

/-- The tolerant JSON extraction used in main.py: the slice of `text`
from the first occurrence of `o` to one past the last occurrence of `c`,
with Python slice semantics. -/
def extract_between (o c : Char) (s : String) : String :=
  py_slice s (py_find s o) (py_rfind s c + 1)

/-- One element of `Interview.responses`, as appended by `process_response`
in main.py: the question text the cursor pointed at, and the provider
recording reference (the `RecordingUrl` form field, absent fields become
`none`). -/
structure Response where
  question : String
  recording_url : Option String
deriving DecidableEq

/-- The durable Interview row (models.py).  `created_at` is omitted (no
claim mentions it); `questions`, `responses` and `report` are the JSON
columns, modelled structurally. -/
structure Interview where
  candidate_name : String
  candidate_phone : String
  job_position : String
  status : String
  questions : List String
  responses : List Response
  report : Option JsonVal

/-- The redis progress cache for one interview id: the cached question
list (the questions key, stored via json.dumps and read back via
json.loads — modelled as the list itself) and the per-call cursor
(the current-question key). `none` models an absent key. -/
structure CacheState where
  questions : Option (List String)
  current_question : Option Nat
deriving DecidableEq

/-- One voice directive of the XML response documents built in main.py
(`<Say>`, `<Pause length=..>`, `<Record action=..>`, `<Hangup/>`). -/
inductive VoiceAction where
  | say (text : String) : VoiceAction
  | pause (length : Nat) : VoiceAction
  | record (action : String) : VoiceAction
  | hangupAct : VoiceAction
deriving DecidableEq

/-- Does a directive document contain a `<Record>` instruction? -/
def has_record_action (d : List VoiceAction) : Bool :=
  d.any fun a =>
    match a with
    | .record _ => true
    | _ => false

/-- The per-turn callback target NGROK_URL/voice/process-response/id. -/
def process_response_url (ngrok_url interview_id : String) : String :=
  ngrok_url ++ "/voice/process-response/" ++ interview_id

/-- The apology document returned by `handle_call_answer` when no cached
question list exists. -/
def apology_directive : List VoiceAction :=
  [.say "Sorry, I could not find the interview questions.", .hangupAct]

/-- The greeting document returned by `handle_call_answer`: greeting,
pause, first question, record. -/
def answer_directive (ngrok_url interview_id q0 : String) : List VoiceAction :=
  [.say "Hello. This is an automated screening call. Let\x27s begin.",
   .pause 1, .say q0, .record (process_response_url ngrok_url interview_id)]

/-- The per-turn document returned by `process_response` when another
question remains: "Next question.", pause, the question, record. -/
def next_question_directive (ngrok_url interview_id q : String) : List VoiceAction :=
  [.say "Next question.", .pause 1, .say q,
   .record (process_response_url ngrok_url interview_id)]

/-- The terminal document returned by `process_response` after the last
question: thank-you then hang up. -/
def thank_you_directive : List VoiceAction :=
  [.say "Thank you. The interview is complete. We will be in touch shortly.",
   .hangupAct]

/-- Model of `call_google_ai` in main.py: on any capability failure it swallows the
exception and returns the fixed error JSON string.  The raw capability
(`llm_model.generate_content_async`) is a parameter; `Except.error` models
a raised exception. -/
def call_google_ai (llm : String → Except String String) (prompt : String) : String :=
  match llm prompt with
  | .ok t => t
  | .error _ => "\x7b\"error\": \"AI response generation failed.\"\x7d"

/-- The answer webhook handler `handle_call_answer` (main.py, POST /voice/answer/:id): if the cached
question list is absent, return the apology document without touching any
state; otherwise set status to `in_progress`, reset the cursor to 0 and
speak the greeting plus cached question 0.  An empty cached list makes
`questions[0]` raise IndexError, modelled as `Except.error`. -/
def handle_call_answer (ngrok_url interview_id : String) (cache : CacheState)
    (itv : Interview) : Except String (CacheState × Interview × List VoiceAction) :=
  match cache.questions with
  | none => .ok (cache, itv, apology_directive)
  | some questions =>
    match questions with
    | [] => .error "IndexError"
    | q0 :: _ =>
      .ok ({ cache with current_question := some 0 },
           { itv with status := "in_progress" },
           answer_directive ngrok_url interview_id q0)

/-- The record webhook handler `process_response` (main.py, POST
/voice/process-response/:id): read
the cursor (an absent cache key is treated as 0), append
`{question: questions[index], recording_url}` to the durable response
list, then either advance the cursor and ask the next question, or mark
the interview `completed` and return the terminal thank-you document.  An
out-of-range question access raises IndexError, modelled as
`Except.error`. -/
def process_response (ngrok_url interview_id : String) (cache : CacheState)
    (itv : Interview) (recording_url : Option String) :
    Except String (CacheState × Interview × List VoiceAction) :=
  let current_index := cache.current_question.getD 0
  match itv.questions[current_index]? with
  | none => .error "IndexError"
  | some q =>
    let new_responses := itv.responses ++ [⟨q, recording_url⟩]
    let next_index := current_index + 1
    match itv.questions[next_index]? with
    | some nextq =>
      .ok ({ cache with current_question := some next_index },
           { itv with responses := new_responses },
           next_question_directive ngrok_url interview_id nextq)
    | none =>
      .ok (cache,
           { itv with responses := new_responses, status := "completed" },
           thank_you_directive)

/-- The hangup status map of main.py: it sends provider status no-answer
to no_answer, busy to busy, failed and canceled to call_failed, and any
other value to the call_failed default; `none` models an absent
`CallStatus` form field. -/
def status_map_get (call_status : Option String) : String :=
  match call_status with
  | some s =>
    if s = "no-answer" then "no_answer"
    else if s = "busy" then "busy"
    else if s = "failed" then "call_failed"
    else if s = "canceled" then "call_failed"
    else "call_failed"
  | none => "call_failed"

/-- The hangup webhook handler `handle_hangup` (main.py, POST
/voice/hangup/:id): an unknown id
returns an error acknowledgement; otherwise, only when the status is not
already `completed`, the provider call status is mapped and persisted; the
returned Bool records whether `generate_interview_report` was scheduled as
background work (the post-step status equals `completed`). -/
def handle_hangup (itv : Option Interview) (call_status : Option String) :
    Option Interview × Bool :=
  match itv with
  | none => (none, false)
  | some itv =>
    let itv1 :=
      if itv.status = "completed" then itv
      else { itv with status := status_map_get call_status }
    (some itv1, itv1.status == "completed")

/-- The fixed two-question fallback set of `create_interview`, as the
array of JSON string values that the except handler assigns. -/
def fallback_question_values : List JsonVal :=
  [.str "Tell me about yourself.", .str "What are your strengths?"]

/-- The question-generation prompt built in `create_interview`. -/
def question_prompt (job_position job_description skills_joined : String) : String :=
  "Generate 5 interview questions for a \"" ++ job_position ++
  "\" role, assessing these skills: " ++ skills_joined ++ ". \n" ++
  "    Job Description: " ++ job_description ++ ".\n" ++
  "    Return ONLY a JSON array of strings: [\"Question 1\", ...]"

/-- The question-parsing step of `create_interview` (main.py lines
161-164): json.loads over the slice from the first opening bracket to
the last closing bracket, inside a bare try/except whose handler returns
the fixed two-question fallback.  The fallback is used exactly when
json.loads fails; a successfully parsed value is kept as is — its
elements need not be strings.  (A non-empty slice starts at the first
opening bracket, so a successful full parse is always an array.) -/
def parse_questions (questions_text : String) : JsonVal :=
  match json_loads (extract_between '[' ']' questions_text) with
  | some v => v
  | none => .arr fallback_question_values

/-- Question generation as run by `create_interview` (main.py lines
156-168): capability call through `call_google_ai`, then tolerant
extraction and parsing.  `create_interview` persists the returned value
unchanged as the question list of the row (with status `ready_to_call`)
and as the cached question list.  The orchestrator model
(`Interview.questions : List String`) covers interviews whose persisted
questions are strings; this generation-boundary model keeps the full
parsed value. -/
def create_interview_questions (llm : String → Except String String)
    (job_position job_description : String) (skills : List String) : JsonVal :=
  parse_questions
    (call_google_ai llm
      (question_prompt job_position job_description (String.intercalate ", " skills)))

/-- One iteration of the transcript loop of `generate_interview_report`:
a response that carries a recording reference appends an
`Interviewer: q / Candidate: t` block, one without is skipped.
(`resp.get("question", ...)` cannot miss here: responses are only ever
appended by `process_response`, which always stores a question.) -/
def conversation_block (transcribe : String → String) (acc : String)
    (resp : Response) : String :=
  match resp.recording_url with
  | some url =>
    acc ++ "Interviewer: " ++ resp.question ++ "\nCandidate: " ++ transcribe url ++ "\n\n"
  | none => acc

/-- The transcript accumulation loop of `generate_interview_report`. -/
def full_conversation (transcribe : String → String) (responses : List Response) : String :=
  responses.foldl (conversation_block transcribe) ""

/-- The report rubric prompt built in `generate_interview_report`. -/
def report_prompt (job_position conv : String) : String :=
  "\n    You are an expert HR analyst. Based on the following interview transcript for a \"" ++
  job_position ++ "\" role,\n    provide a structured performance report.\n\n" ++
  "    Transcript:\n---\n" ++ conv ++ "---\n\n" ++
  "    Analyze the candidate\x27s performance and provide your report ONLY in this exact JSON format:\n" ++
  "    \x7b\n      \"overall_score\": \"A score from 1-10\", \"recommendation\": \"Strong Hire | Hire | Consider | No Hire\",\n" ++
  "      \"summary\": \"A 2-3 sentence summary of the candidate\x27s performance.\",\n" ++
  "      \"strengths\": [\"Identified strength 1\", \"Identified strength 2\"],\n" ++
  "      \"weaknesses\": [\"Identified weakness 1\", \"Identified weakness 2\"]\n    \x7d\n    "

/-- The report generator `generate_interview_report` (main.py): an absent
interview or an empty
response list returns at once; an empty transcript stores the
no-valid-responses error object; otherwise the rubric capability is
invoked and the extracted JSON slice is parsed — on success the parsed
object is stored and status becomes `report_ready`, on failure the
error-marker object is stored and status is untouched.  The returned Bool
records whether the generative-text capability was invoked.  (models.py
declares no `report` column, so `interview.report = ...` mutates only the
loaded object; the model carries `report` as an interview field and does
not distinguish column persistence, which is out of the embedded scope.) -/
def generate_interview_report (llm : String → Except String String)
    (transcribe : String → String) (itv : Option Interview) :
    Option Interview × Bool :=
  match itv with
  | none => (none, false)
  | some itv =>
    if itv.responses.isEmpty then (some itv, false)
    else
      let conv := full_conversation transcribe itv.responses
      if conv = "" then
        (some { itv with
                  report := some (.obj [("error", .str "No valid responses to analyze.")]) },
         false)
      else
        let report_text := call_google_ai llm (report_prompt itv.job_position conv)
        match json_loads (extract_between '\x7b' '\x7d' report_text) with
        | some report_json =>
          (some { itv with report := some report_json, status := "report_ready" }, true)
        | none =>
          (some { itv with
                    report := some (.obj [("error", .str "Failed to generate AI report.")]) },
           true)

/-- Iterate `process_response` over a sequence of record events (one
recording reference per event), collecting the returned directive
documents in order. -/
def run_records (ngrok_url interview_id : String) :
    CacheState → Interview → List (Option String) →
    Except String (CacheState × Interview × List (List VoiceAction))
  | cache, itv, [] => .ok (cache, itv, [])
  | cache, itv, url :: rest =>
    match process_response ngrok_url interview_id cache itv url with
    | .error e => .error e
    | .ok (cache1, itv1, out) =>
      match run_records ngrok_url interview_id cache1 itv1 rest with
      | .error e => .error e
      | .ok (cache2, itv2, outs) => .ok (cache2, itv2, out :: outs)



/-- A record event with another question remaining: append the cursor
question, advance the cursor, ask the next question. -/
theorem process_response_mid (nu iid : String) (cache : CacheState) (itv : Interview)
    (url : Option String) (i : Nat) (hcur : cache.current_question = some i)
    (h1 : i + 1 < itv.questions.length) :
    process_response nu iid cache itv url =
      .ok ({ cache with current_question := some (i + 1) },
           { itv with responses :=
               itv.responses ++ [⟨itv.questions.get ⟨i, by omega⟩, url⟩] },
           next_question_directive nu iid (itv.questions.get ⟨i + 1, h1⟩)) := by
  have hi : i < itv.questions.length := by omega
  simp only [process_response, hcur, Option.getD_some,
    List.getElem?_eq_getElem hi, List.getElem?_eq_getElem h1, List.get_eq_getElem]

/-- A record event on the last question: append the cursor question, keep
the cursor, set status `completed`, return the terminal document. -/
theorem process_response_last (nu iid : String) (cache : CacheState) (itv : Interview)
    (url : Option String) (i : Nat) (hcur : cache.current_question = some i)
    (hi : i < itv.questions.length) (hN : itv.questions.length = i + 1) :
    process_response nu iid cache itv url =
      .ok (cache,
           { itv with
               responses := itv.responses ++ [⟨itv.questions.get ⟨i, hi⟩, url⟩]
               status := "completed" },
           thank_you_directive) := by
  have hnone : itv.questions[i + 1]? = none := List.getElem?_eq_none (by omega)
  simp only [process_response, hcur, Option.getD_some,
    List.getElem?_eq_getElem hi, hnone, List.get_eq_getElem]

/-- Master characterisation of a sequence of record events that starts at
cursor index `i` and does not outrun the question list: every event
appends the cursor question paired with its recording reference, the
cursor advances while questions remain, status flips to `completed`
exactly on the event that consumes the last question, and each returned
document is the next-question document except the last-question one,
which is the terminal thank-you document. -/
theorem run_records_spec (nu iid : String) (urls : List (Option String)) :
    ∀ (i : Nat) (cache : CacheState) (itv : Interview),
      cache.current_question = some i →
      i + urls.length ≤ itv.questions.length →
      ∃ cache2 itv2 outs,
        run_records nu iid cache itv urls = .ok (cache2, itv2, outs) ∧
        itv2.questions = itv.questions ∧
        itv2.report = itv.report ∧
        itv2.responses = itv.responses ++
          List.zipWith (fun q u => Response.mk q u)
            ((itv.questions.drop i).take urls.length) urls ∧
        (i + urls.length < itv.questions.length →
          cache2.current_question = some (i + urls.length) ∧ itv2.status = itv.status) ∧
        (urls ≠ [] → i + urls.length = itv.questions.length → itv2.status = "completed") ∧
        (urls = [] → cache2 = cache ∧ itv2 = itv) ∧
        outs.length = urls.length ∧
        (∀ k, k < urls.length →
          outs[k]? = some
            (if i + k + 1 < itv.questions.length
             then next_question_directive nu iid (itv.questions.getD (i + k + 1) "")
             else thank_you_directive)) := by
  induction urls with
  | nil =>
    intro i cache itv hcur _
    exact ⟨cache, itv, [], rfl, rfl, rfl, by simp, fun _ => ⟨hcur, rfl⟩, by simp,
      fun _ => ⟨rfl, rfl⟩, rfl, by simp⟩
  | cons url rest ih =>
    intro i cache itv hcur hle
    simp only [List.length_cons] at hle
    have hi : i < itv.questions.length := by omega
    by_cases hmid : i + 1 < itv.questions.length
    · have step := process_response_mid nu iid cache itv url i hcur hmid
      obtain ⟨cache2, itv2, outs, hrun, hq, hrep, hresp, hmidc, hcomp, _, hlen, houts⟩ :=
        ih (i + 1) { cache with current_question := some (i + 1) }
          { itv with responses := itv.responses ++ [⟨itv.questions.get ⟨i, hi⟩, url⟩] }
          rfl
          (by show i + 1 + rest.length ≤ itv.questions.length
              omega)
      have hq' : itv2.questions = itv.questions := hq
      have hrep' : itv2.report = itv.report := hrep
      have hresp' : itv2.responses =
          (itv.responses ++ [⟨itv.questions.get ⟨i, hi⟩, url⟩]) ++
            List.zipWith (fun q u => Response.mk q u)
              ((itv.questions.drop (i + 1)).take rest.length) rest := hresp
      have hmidc' : i + 1 + rest.length < itv.questions.length →
          cache2.current_question = some (i + 1 + rest.length) ∧
            itv2.status = itv.status := hmidc
      have hcomp' : rest ≠ [] → i + 1 + rest.length = itv.questions.length →
          itv2.status = "completed" := hcomp
      have houts' : ∀ k, k < rest.length →
          outs[k]? = some
            (if i + 1 + k + 1 < itv.questions.length
             then next_question_directive nu iid (itv.questions.getD (i + 1 + k + 1) "")
             else thank_you_directive) := houts
      refine ⟨cache2, itv2,
        next_question_directive nu iid (itv.questions.get ⟨i + 1, hmid⟩) :: outs,
        ?_, hq', hrep', ?_, ?_, ?_, ?_, ?_, ?_⟩
      · simp only [run_records, step, hrun]
      · rw [hresp']
        simp only [List.length_cons, List.drop_eq_getElem_cons hi, List.take_succ_cons,
          List.zipWith_cons_cons, List.append_assoc, List.singleton_append,
          List.get_eq_getElem]
      · intro h
        simp only [List.length_cons] at h
        obtain ⟨hc, hs⟩ := hmidc' (by omega)
        refine ⟨?_, hs⟩
        rw [hc]
        congr 1
        simp only [List.length_cons]
        omega
      · intro _ hsum
        simp only [List.length_cons] at hsum
        have hne : rest ≠ [] := by
          intro hrest
          subst hrest
          simp only [List.length_nil] at hsum
          omega
        exact hcomp' hne (by omega)
      · intro h
        exact absurd h (by simp)
      · simp [hlen]
      · intro k hk
        simp only [List.length_cons] at hk
        cases k with
        | zero =>
          simp only [List.getElem?_cons_zero, Nat.add_zero]
          rw [if_pos hmid, List.getD_eq_getElem _ _ hmid]
          simp [List.get_eq_getElem]
        | succ k' =>
          simp only [List.getElem?_cons_succ]
          rw [houts' k' (by omega)]
          have he : i + 1 + k' + 1 = i + (k' + 1) + 1 := by omega
          rw [he]
    · have hN : itv.questions.length = i + 1 := by omega
      have hrest : rest = [] := by
        have h0 : rest.length = 0 := by omega
        exact List.length_eq_zero.mp h0
      subst hrest
      have step := process_response_last nu iid cache itv url i hcur hi hN
      refine ⟨cache,
        { itv with
            responses := itv.responses ++ [⟨itv.questions.get ⟨i, hi⟩, url⟩]
            status := "completed" },
        [thank_you_directive], ?_, rfl, rfl, ?_, ?_, ?_, ?_, rfl, ?_⟩
      · simp only [run_records, step]
      · simp only [List.length_cons, List.length_nil, Nat.zero_add,
          List.take_one_drop_eq_of_lt_length hi, List.zipWith_cons_cons,
          List.zipWith_nil_right]
      · intro h
        simp only [List.length_cons, List.length_nil] at h
        omega
      · intro _ _
        rfl
      · intro h
        exact absurd h (by simp)
      · intro k hk
        simp only [List.length_cons, List.length_nil] at hk
        cases k with
        | zero =>
          simp only [List.getElem?_cons_zero, Nat.add_zero]
          rw [if_neg (by omega)]
        | succ k' => omega

/-- The hangup status map never produces `completed`. -/
theorem status_map_get_cases (cs : Option String) :
    status_map_get cs = "no_answer" ∨ status_map_get cs = "busy" ∨
      status_map_get cs = "call_failed" := by
  cases cs with
  | none => right; right; rfl
  | some s =>
    by_cases h1 : s = "no-answer"
    · simp [status_map_get, h1]
    · by_cases h2 : s = "busy"
      · simp [status_map_get, h1, h2]
      · by_cases h3 : s = "failed"
        · simp [status_map_get, h1, h2, h3]
        · by_cases h4 : s = "canceled" <;> simp [status_map_get, h1, h2, h3, h4]

/-- No provider call status maps to `completed`. -/
theorem status_map_get_ne_completed (cs : Option String) :
    status_map_get cs ≠ "completed" := by
  rcases status_map_get_cases cs with h | h | h <;> rw [h] <;> decide

/-- C3 counterexample: an answer event on an interview whose status is the
terminal `completed` (with the never-deleted cached question list still
present) moves the status back to `in_progress`, leaving the transition
graph. -/
theorem c3_answer_exits_terminal_cex :
    handle_call_answer "N" "I" ⟨some ["q"], some 0⟩
        ⟨"a", "b", "c", "completed", ["q"], [], none⟩ =
      .ok (⟨some ["q"], some 0⟩,
           ⟨"a", "b", "c", "in_progress", ["q"], [], none⟩,
           answer_directive "N" "I" "q") := by rfl

/-- C3 (amended): the record handler changes status only to `completed`
(otherwise it leaves it) and the hangup handler never leaves `completed`
and otherwise moves only to the off-path terminals; but the answer handler
sets status to `in_progress` unconditionally whenever a cached question
list exists, regardless of the previous status — including out of the
terminal states. -/
theorem c3_status_transitions (nu iid : String) :
    (∀ cache itv url cache2 itv2 out,
      process_response nu iid cache itv url = .ok (cache2, itv2, out) →
      itv2.status = itv.status ∨ itv2.status = "completed") ∧
    (∀ itv cs itv2 sched,
      handle_hangup (some itv) cs = (some itv2, sched) →
      (itv.status = "completed" → itv2 = itv) ∧
      (itv.status ≠ "completed" →
        itv2.status = "no_answer" ∨ itv2.status = "busy" ∨
          itv2.status = "call_failed")) ∧
    (∀ cache itv q0 qs, cache.questions = some (q0 :: qs) →
      ∃ cache2 itv2 out,
        handle_call_answer nu iid cache itv = .ok (cache2, itv2, out) ∧
        itv2.status = "in_progress") := by
  refine ⟨?_, ?_, ?_⟩
  · intro cache itv url cache2 itv2 out h
    simp only [process_response] at h
    split at h
    · simp at h
    · split at h
      · simp only [Except.ok.injEq, Prod.mk.injEq] at h
        obtain ⟨-, h2, -⟩ := h
        left
        rw [← h2]
      · simp only [Except.ok.injEq, Prod.mk.injEq] at h
        obtain ⟨-, h2, -⟩ := h
        right
        rw [← h2]
  · intro itv cs itv2 sched h
    by_cases hc : itv.status = "completed"
    · simp only [handle_hangup, if_pos hc, Prod.mk.injEq, Option.some.injEq] at h
      obtain ⟨h1, -⟩ := h
      exact ⟨fun _ => h1.symm, fun hn => absurd hc hn⟩
    · simp only [handle_hangup, if_neg hc, Prod.mk.injEq, Option.some.injEq] at h
      obtain ⟨h1, -⟩ := h
      refine ⟨fun hcc => absurd hcc hc, fun _ => ?_⟩
      rw [← h1]
      exact status_map_get_cases cs
  · intro cache itv q0 qs hcq
    exact ⟨{ cache with current_question := some 0 },
      { itv with status := "in_progress" },
      answer_directive nu iid q0, by simp only [handle_call_answer, hcq], rfl⟩

/-- C4: a hangup on an already-completed interview leaves the row
untouched (and schedules report generation); in general, report
generation is scheduled exactly when the status after the handler's
status step is `completed`. -/
theorem c4_hangup_completed_frame (itv : Interview) (cs : Option String) :
    (itv.status = "completed" → handle_hangup (some itv) cs = (some itv, true)) ∧
    (∀ itv2 sched, handle_hangup (some itv) cs = (some itv2, sched) →
      (sched = true ↔ itv2.status = "completed")) := by
  constructor
  · intro h
    simp [handle_hangup, h]
  · intro itv2 sched h
    by_cases hc : itv.status = "completed"
    · simp only [handle_hangup, if_pos hc, Prod.mk.injEq, Option.some.injEq] at h
      obtain ⟨h1, h2⟩ := h
      rw [← h2, ← h1]
      simp [hc]
    · simp only [handle_hangup, if_neg hc, Prod.mk.injEq, Option.some.injEq] at h
      obtain ⟨h1, h2⟩ := h
      rw [← h2, ← h1]
      simp [status_map_get_ne_completed cs]

/-- C5: for a hangup on a not-completed interview the provider call status
is mapped by `status_map_get`: `"no-answer"` to `no_answer`, `"busy"` to
`busy`, and everything else — `"failed"`, `"canceled"`, an unrecognized
value or an absent field — to `call_failed`. -/
theorem c5_hangup_status_map (itv : Interview) (cs : Option String)
    (h : itv.status ≠ "completed") :
    handle_hangup (some itv) cs =
      (some { itv with status := status_map_get cs }, false) ∧
    status_map_get (some "no-answer") = "no_answer" ∧
    status_map_get (some "busy") = "busy" ∧
    status_map_get (some "failed") = "call_failed" ∧
    status_map_get (some "canceled") = "call_failed" ∧
    (∀ cs2 : Option String, cs2 ≠ some "no-answer" → cs2 ≠ some "busy" →
      status_map_get cs2 = "call_failed") := by
  refine ⟨?_, rfl, rfl, rfl, rfl, ?_⟩
  · simp only [handle_hangup, if_neg h, Prod.mk.injEq, true_and]
    simp [status_map_get_ne_completed cs]
  · intro cs2 h1 h2
    cases cs2 with
    | none => rfl
    | some s =>
      have hs1 : s ≠ "no-answer" := fun hh => h1 (by rw [hh])
      have hs2 : s ≠ "busy" := fun hh => h2 (by rw [hh])
      by_cases h3 : s = "failed"
      · simp [status_map_get, hs1, hs2, h3]
      · by_cases h4 : s = "canceled" <;> simp [status_map_get, hs1, hs2, h3, h4]

/-- C6: an answer event with no cached question list returns the apology
document and leaves both the cache and the interview row exactly as they
were. -/
theorem c6_answer_no_cache_apology (nu iid : String) (cache : CacheState)
    (itv : Interview) (h : cache.questions = none) :
    handle_call_answer nu iid cache itv = .ok (cache, itv, apology_directive) := by
  simp only [handle_call_answer, h]

/-- C10: a record event whose cursor cache entry is absent is processed
with index 0: it appends a response paired with `questions[0]` and
returns a normal directive document (never a NotFound failure and never
the apology document). -/
theorem c10_missing_cursor_defaults_zero (nu iid : String) (cache : CacheState)
    (itv : Interview) (url : Option String) (q0 : String) (qrest : List String)
    (hcur : cache.current_question = none) (hq : itv.questions = q0 :: qrest) :
    ∃ cache2 itv2 out,
      process_response nu iid cache itv url = .ok (cache2, itv2, out) ∧
      itv2.responses = itv.responses ++ [⟨q0, url⟩] ∧
      (out = next_question_directive nu iid (itv.questions.getD 1 "") ∨
        out = thank_you_directive) ∧
      out ≠ apology_directive := by
  have h0 : itv.questions[(0 : Nat)]? = some q0 := by rw [hq]; simp
  cases h1 : itv.questions[(1 : Nat)]? with
  | none =>
    refine ⟨cache,
      { itv with
          responses := itv.responses ++ [⟨q0, url⟩]
          status := "completed" },
      thank_you_directive, ?_, rfl, Or.inr rfl, ?_⟩
    · simp only [process_response, hcur, Option.getD_none, h0, h1]
    · simp [thank_you_directive, apology_directive]
  | some q1 =>
    refine ⟨{ cache with current_question := some 1 },
      { itv with responses := itv.responses ++ [⟨q0, url⟩] },
      next_question_directive nu iid q1, ?_, rfl, ?_, ?_⟩
    · simp only [process_response, hcur, Option.getD_none, h0, h1]
    · left
      congr 1
      rw [List.getD_eq_getElem?_getD, h1]
      rfl
    · simp [next_question_directive, apology_directive]

/-- A fold of `conversation_block` over responses that all lack a
recording reference leaves the accumulator unchanged. -/
theorem conversation_block_foldl_all_none (transcribe : String → String) :
    ∀ (rs : List Response) (acc : String), (∀ r ∈ rs, r.recording_url = none) →
      rs.foldl (conversation_block transcribe) acc = acc := by
  intro rs
  induction rs with
  | nil => intro acc _; rfl
  | cons r rest ih =>
    intro acc hall
    have hr : r.recording_url = none := hall r (by simp)
    simp only [List.foldl_cons, conversation_block, hr]
    exact ih acc fun x hx => hall x (by simp [hx])

/-- The transcript of a response list without any recording reference is
empty. -/
theorem full_conversation_all_none (transcribe : String → String)
    (rs : List Response) (h : ∀ r ∈ rs, r.recording_url = none) :
    full_conversation transcribe rs = "" :=
  conversation_block_foldl_all_none transcribe rs "" h

/-- C7 counterexample: with zero responses `generate_interview_report`
returns at once — the report field stays `none` (no report-shaped error
object is persisted) and the generative-text capability is not invoked. -/
theorem c7_zero_responses_cex :
    generate_interview_report (fun _ => .ok "ignored") (fun _ => "t")
        (some ⟨"a", "b", "c", "completed", ["q"], [], none⟩) =
      (some ⟨"a", "b", "c", "completed", ["q"], [], none⟩, false) := by rfl

/-- C7 (amended): with zero responses the report generator returns
without invoking the capability and without persisting anything; the
`No valid responses to analyze` error object is persisted (still without
a capability call) only when responses exist but none carries a recording
reference. -/
theorem c7_report_zero_responses (llm : String → Except String String)
    (transcribe : String → String) (itv : Interview) :
    (itv.responses = [] →
      generate_interview_report llm transcribe (some itv) = (some itv, false)) ∧
    (itv.responses ≠ [] → (∀ r ∈ itv.responses, r.recording_url = none) →
      generate_interview_report llm transcribe (some itv) =
        (some { itv with report := some (.obj [("error", .str "No valid responses to analyze.")]) },
         false)) := by
  constructor
  · intro h
    simp [generate_interview_report, h]
  · intro hne hall
    have hconv : full_conversation transcribe itv.responses = "" :=
      full_conversation_all_none transcribe itv.responses hall
    have hempty : itv.responses.isEmpty = false := by
      cases hrs : itv.responses with
      | nil => exact absurd hrs hne
      | cons a b => rfl
    simp [generate_interview_report, hempty, hconv]

/-- C8 counterexample: when the generative-text capability fails, the
fallback error JSON returned by `call_google_ai` parses, so the hangup
path persists it as the report and advances status from `completed` to
`report_ready` instead of leaving it at `completed`. -/
theorem c8_capability_failure_cex :
    generate_interview_report (fun _ => .error "boom") (fun _ => "hello")
        (some ⟨"n", "p", "Engineer", "completed", ["q"],
              [⟨"q", some "http://rec"⟩], none⟩) =
      (some ⟨"n", "p", "Engineer", "report_ready", ["q"],
            [⟨"q", some "http://rec"⟩],
            some (.obj [("error", .str "AI response generation failed.")])⟩,
       true) := by rfl

/-- C8 (amended): once a non-empty transcript exists, the capability is
invoked and the extracted brace slice is parsed; on parse failure the
`Failed to generate AI report` error object is persisted and the status
is left unchanged (in particular `completed` stays `completed`), while on
any parse success — including the fallback error JSON produced when the
capability call itself fails — the parsed object is persisted and the
status is advanced to `report_ready`. -/
theorem c8_report_failure_paths (llm : String → Except String String)
    (transcribe : String → String) (itv : Interview)
    (hne : itv.responses ≠ [])
    (hconv : full_conversation transcribe itv.responses ≠ "") :
    (json_loads (extract_between '\x7b' '\x7d'
        (call_google_ai llm (report_prompt itv.job_position
          (full_conversation transcribe itv.responses)))) = none →
      generate_interview_report llm transcribe (some itv) =
        (some { itv with report := some (.obj [("error", .str "Failed to generate AI report.")]) },
         true)) ∧
    (∀ j, json_loads (extract_between '\x7b' '\x7d'
        (call_google_ai llm (report_prompt itv.job_position
          (full_conversation transcribe itv.responses)))) = some j →
      generate_interview_report llm transcribe (some itv) =
        (some { itv with
                  report := some j
                  status := "report_ready" },
         true)) ∧
    (∀ e, llm (report_prompt itv.job_position
        (full_conversation transcribe itv.responses)) = .error e →
      generate_interview_report llm transcribe (some itv) =
        (some { itv with
                  report := some (.obj [("error", .str "AI response generation failed.")])
                  status := "report_ready" },
         true)) := by
  have hempty : itv.responses.isEmpty = false := by
    cases hrs : itv.responses with
    | nil => exact absurd hrs hne
    | cons a b => rfl
  refine ⟨?_, ?_, ?_⟩
  · intro hparse
    simp [generate_interview_report, hempty, hconv, hparse]
  · intro j hparse
    simp [generate_interview_report, hempty, hconv, hparse]
  · intro e herr
    have htext : call_google_ai llm (report_prompt itv.job_position
        (full_conversation transcribe itv.responses)) =
        "\x7b\"error\": \"AI response generation failed.\"\x7d" := by
      simp [call_google_ai, herr]
    have hparse : json_loads (extract_between '\x7b' '\x7d'
        (call_google_ai llm (report_prompt itv.job_position
          (full_conversation transcribe itv.responses)))) =
        some (.obj [("error", .str "AI response generation failed.")]) := by
      rw [htext]; rfl
    simp [generate_interview_report, hempty, hconv, hparse]

/-- C9 counterexample: a capability response of `"[]"` parses, so
`create_interview` persists an empty question list — the "always a
usable (non-empty) question list" part of the claim fails. -/
theorem c9_empty_array_cex :
    create_interview_questions (fun _ => .ok "[]") "Engineer" "desc" ["SQL"] =
      .arr [] := by rfl

/-- C9 (amended): question generation never fails the caller: when the
capability errors (its fallback error JSON contains no array) or
json.loads fails on the extracted slice, the fixed two-question fallback
array — which is non-empty — is used; otherwise the parsed value is
persisted as is, whatever its elements, and it may be the empty array. -/
theorem c9_question_generation (llm : String → Except String String)
    (jp jd : String) (skills : List String) :
    (json_loads (extract_between '[' ']'
        (call_google_ai llm (question_prompt jp jd
          (String.intercalate ", " skills)))) = none →
      create_interview_questions llm jp jd skills = .arr fallback_question_values) ∧
    (∀ v, json_loads (extract_between '[' ']'
        (call_google_ai llm (question_prompt jp jd
          (String.intercalate ", " skills)))) = some v →
      create_interview_questions llm jp jd skills = v) ∧
    (∀ e, llm (question_prompt jp jd (String.intercalate ", " skills)) = .error e →
      create_interview_questions llm jp jd skills = .arr fallback_question_values) ∧
    fallback_question_values ≠ [] := by
  refine ⟨?_, ?_, ?_, by simp [fallback_question_values]⟩
  · intro hparse
    simp [create_interview_questions, parse_questions, hparse]
  · intro v hparse
    simp [create_interview_questions, parse_questions, hparse]
  · intro e herr
    have htext : call_google_ai llm (question_prompt jp jd
        (String.intercalate ", " skills)) =
        "\x7b\"error\": \"AI response generation failed.\"\x7d" := by
      simp [call_google_ai, herr]
    simp only [create_interview_questions, parse_questions, htext]
    rfl

/-- C1: starting from a freshly answered interview (cursor seeded at 0,
empty response list) and a record-event sequence no longer than the
question list — which is what the cursor discipline produces, since no
record directive is issued after the last question — every run leaves
`len(responses) <= len(questions)` and pairs `responses[k].question`
positionally with `questions[k]`.  Quantifying over all such sequences
covers the state after every intermediate record event, each prefix being
such a sequence. -/
theorem c1_record_pairing_invariant (nu iid : String) (cache : CacheState)
    (itv : Interview) (urls : List (Option String))
    (hcur : cache.current_question = some 0)
    (hresp0 : itv.responses = [])
    (hlen : urls.length ≤ itv.questions.length) :
    ∃ cache2 itv2 outs,
      run_records nu iid cache itv urls = .ok (cache2, itv2, outs) ∧
      itv2.questions = itv.questions ∧
      itv2.responses.length ≤ itv2.questions.length ∧
      ∀ k, ∀ hk : k < itv2.responses.length,
        (itv2.responses.get ⟨k, hk⟩).question = itv2.questions.getD k "" := by
  obtain ⟨cache2, itv2, outs, hrun, hq, -, hresp2, -, -, -, -, -⟩ :=
    run_records_spec nu iid urls 0 cache itv hcur (by omega)
  rw [hresp0, List.nil_append, List.drop_zero] at hresp2
  have hlen2 : itv2.responses.length = urls.length := by
    rw [hresp2, List.length_zipWith, List.length_take]
    omega
  refine ⟨cache2, itv2, outs, hrun, hq, ?_, ?_⟩
  · rw [hlen2, hq]
    exact hlen
  · intro k hk
    have hk2 : k < itv.questions.length := by omega
    rw [hq, List.getD_eq_getElem _ _ hk2]
    simp only [List.get_eq_getElem, hresp2, List.getElem_zipWith, List.getElem_take]

/-- C2: from the answered state (status `in_progress`, cursor at 0) with a
non-empty question list of length N, a run of exactly N record events:
after each of the first m < N events the cursor has advanced to m and the
status is still `in_progress`; each of the first N-1 returned documents
speaks the next question and records again; the Nth event flips the
status to `completed` and returns the terminal thank-you document, which
contains no record instruction. -/
theorem c2_record_run_completes (nu iid : String) (cache : CacheState)
    (itv : Interview) (urls : List (Option String))
    (hcur : cache.current_question = some 0)
    (hne : itv.questions ≠ [])
    (hst : itv.status = "in_progress")
    (hlen : urls.length = itv.questions.length) :
    (∀ m, m < itv.questions.length →
      ∃ cm im om, run_records nu iid cache itv (urls.take m) = .ok (cm, im, om) ∧
        cm.current_question = some m ∧ im.status = "in_progress") ∧
    (∃ cache2 itv2 outs,
      run_records nu iid cache itv urls = .ok (cache2, itv2, outs) ∧
      itv2.status = "completed" ∧
      outs.length = itv.questions.length ∧
      outs[itv.questions.length - 1]? = some thank_you_directive ∧
      has_record_action thank_you_directive = false ∧
      (∀ k, k + 1 < itv.questions.length →
        outs[k]? = some (next_question_directive nu iid (itv.questions.getD (k + 1) "")) ∧
        has_record_action
          (next_question_directive nu iid (itv.questions.getD (k + 1) "")) = true)) := by
  have hN : 0 < itv.questions.length := List.length_pos.mpr hne
  constructor
  · intro m hm
    have htm : (urls.take m).length = m := by
      rw [List.length_take]
      omega
    obtain ⟨cm, im, om, hrun, -, -, -, hmidc, -, -, -, -⟩ :=
      run_records_spec nu iid (urls.take m) 0 cache itv hcur
        (by rw [htm]; omega)
    rw [htm] at hmidc
    obtain ⟨hc, hs⟩ := hmidc (by omega)
    rw [Nat.zero_add] at hc
    exact ⟨cm, im, om, hrun, hc, by rw [hs, hst]⟩
  · obtain ⟨cache2, itv2, outs, hrun, -, -, -, -, hcomp, -, hlen2, houts⟩ :=
      run_records_spec nu iid urls 0 cache itv hcur (by omega)
    have hurlne : urls ≠ [] := by
      intro h
      subst h
      simp only [List.length_nil] at hlen
      omega
    refine ⟨cache2, itv2, outs, hrun, hcomp hurlne (by omega),
      by rw [hlen2, hlen], ?_, by rfl, ?_⟩
    · have hlast := houts (itv.questions.length - 1) (by omega)
      rw [if_neg (by omega)] at hlast
      exact hlast
    · intro k hk
      have hthis := houts k (by omega)
      rw [if_pos (by omega)] at hthis
      rw [Nat.zero_add] at hthis
      exact ⟨hthis, by rfl⟩

/-- Witness for C1 at a concrete two-question interview and one record
event. -/
theorem c1_record_pairing_invariant_witness :
    ∃ cache2 itv2 outs,
      run_records "N" "I" ⟨some ["qa", "qb"], some 0⟩
          ⟨"cn", "cp", "jp", "in_progress", ["qa", "qb"], [], none⟩
          [some "u1"] = .ok (cache2, itv2, outs) ∧
      itv2.questions = ["qa", "qb"] ∧
      itv2.responses.length ≤ itv2.questions.length ∧
      ∀ k, ∀ hk : k < itv2.responses.length,
        (itv2.responses.get ⟨k, hk⟩).question = itv2.questions.getD k "" :=
  c1_record_pairing_invariant "N" "I" ⟨some ["qa", "qb"], some 0⟩
    ⟨"cn", "cp", "jp", "in_progress", ["qa", "qb"], [], none⟩
    [some "u1"] rfl rfl (by decide)

/-- Witness for C2 at a concrete two-question interview and two record
events. -/
theorem c2_record_run_completes_witness :
    (∀ m, m < (["qa", "qb"] : List String).length →
      ∃ cm im om, run_records "N" "I" ⟨some ["qa", "qb"], some 0⟩
          ⟨"cn", "cp", "jp", "in_progress", ["qa", "qb"], [], none⟩
          ([some "u1", some "u2"].take m) = .ok (cm, im, om) ∧
        cm.current_question = some m ∧ im.status = "in_progress") ∧
    (∃ cache2 itv2 outs,
      run_records "N" "I" ⟨some ["qa", "qb"], some 0⟩
          ⟨"cn", "cp", "jp", "in_progress", ["qa", "qb"], [], none⟩
          [some "u1", some "u2"] = .ok (cache2, itv2, outs) ∧
      itv2.status = "completed" ∧
      outs.length = (["qa", "qb"] : List String).length ∧
      outs[(["qa", "qb"] : List String).length - 1]? = some thank_you_directive ∧
      has_record_action thank_you_directive = false ∧
      (∀ k, k + 1 < (["qa", "qb"] : List String).length →
        outs[k]? = some (next_question_directive "N" "I"
          ((["qa", "qb"] : List String).getD (k + 1) "")) ∧
        has_record_action (next_question_directive "N" "I"
          ((["qa", "qb"] : List String).getD (k + 1) "")) = true)) :=
  c2_record_run_completes "N" "I" ⟨some ["qa", "qb"], some 0⟩
    ⟨"cn", "cp", "jp", "in_progress", ["qa", "qb"], [], none⟩
    [some "u1", some "u2"] rfl (by decide) rfl rfl

/-- Witness for the amended C3: an answer event on an interview in the
terminal `no_answer` state with a cached question list succeeds and sets
status `in_progress`. -/
theorem c3_status_transitions_witness :
    ∃ cache2 itv2 out,
      handle_call_answer "N" "I" ⟨some ["q0"], none⟩
          ⟨"cn", "cp", "jp", "no_answer", ["q0"], [], none⟩ = .ok (cache2, itv2, out) ∧
      itv2.status = "in_progress" :=
  (c3_status_transitions "N" "I").2.2 ⟨some ["q0"], none⟩
    ⟨"cn", "cp", "jp", "no_answer", ["q0"], [], none⟩ "q0" [] rfl

/-- Witness for C4: a hangup on a concrete completed interview leaves the
row untouched and schedules report generation. -/
theorem c4_hangup_completed_frame_witness :
    handle_hangup (some ⟨"cn", "cp", "jp", "completed", ["q"], [], none⟩)
        (some "completed") =
      (some ⟨"cn", "cp", "jp", "completed", ["q"], [], none⟩, true) :=
  (c4_hangup_completed_frame ⟨"cn", "cp", "jp", "completed", ["q"], [], none⟩
    (some "completed")).1 rfl

/-- Witness for C5 at a concrete in-progress interview and provider
status `"no-answer"`. -/
theorem c5_hangup_status_map_witness :
    (handle_hangup (some ⟨"cn", "cp", "jp", "in_progress", ["q"], [], none⟩)
        (some "no-answer") =
      (some ⟨"cn", "cp", "jp", "no_answer", ["q"], [], none⟩, false)) ∧
    status_map_get (some "no-answer") = "no_answer" ∧
    status_map_get (some "busy") = "busy" ∧
    status_map_get (some "failed") = "call_failed" ∧
    status_map_get (some "canceled") = "call_failed" ∧
    (∀ cs2 : Option String, cs2 ≠ some "no-answer" → cs2 ≠ some "busy" →
      status_map_get cs2 = "call_failed") :=
  c5_hangup_status_map ⟨"cn", "cp", "jp", "in_progress", ["q"], [], none⟩
    (some "no-answer") (by decide)

/-- Witness for C6 at a concrete interview with an empty cache. -/
theorem c6_answer_no_cache_apology_witness :
    handle_call_answer "N" "I" ⟨none, none⟩
        ⟨"cn", "cp", "jp", "ready_to_call", ["q"], [], none⟩ =
      .ok (⟨none, none⟩, ⟨"cn", "cp", "jp", "ready_to_call", ["q"], [], none⟩,
           apology_directive) :=
  c6_answer_no_cache_apology "N" "I" ⟨none, none⟩
    ⟨"cn", "cp", "jp", "ready_to_call", ["q"], [], none⟩ rfl

/-- Witness for the amended C7 at a concrete zero-response interview. -/
theorem c7_report_zero_responses_witness :
    generate_interview_report (fun _ => .ok "x") (fun _ => "t")
        (some ⟨"w", "x", "y", "completed", ["q"], [], none⟩) =
      (some ⟨"w", "x", "y", "completed", ["q"], [], none⟩, false) :=
  (c7_report_zero_responses (fun _ => .ok "x") (fun _ => "t")
    ⟨"w", "x", "y", "completed", ["q"], [], none⟩).1 rfl

/-- Witness for the amended C8: a failing capability on a concrete
one-response interview yields the persisted error JSON and status
`report_ready`. -/
theorem c8_report_failure_paths_witness :
    generate_interview_report (fun _ => .error "x") (fun _ => "txt")
        (some ⟨"w", "y", "Analyst", "completed", ["qq"], [⟨"qq", some "u"⟩], none⟩) =
      (some ⟨"w", "y", "Analyst", "report_ready", ["qq"], [⟨"qq", some "u"⟩],
            some (.obj [("error", .str "AI response generation failed.")])⟩,
       true) :=
  (c8_report_failure_paths (fun _ => .error "x") (fun _ => "txt")
      ⟨"w", "y", "Analyst", "completed", ["qq"], [⟨"qq", some "u"⟩], none⟩
      (by decide) (by decide)).2.2 "x" rfl

/-- Witness for the amended C9: a failing capability yields the fixed
fallback set. -/
theorem c9_question_generation_witness :
    create_interview_questions (fun _ => .error "x") "jp" "jd" ["SQL"] =
      .arr fallback_question_values :=
  (c9_question_generation (fun _ => .error "x") "jp" "jd" ["SQL"]).2.2.1 "x" rfl

/-- Witness for C10 at a concrete interview whose cursor cache entry is
absent. -/
theorem c10_missing_cursor_defaults_zero_witness :
    ∃ cache2 itv2 out,
      process_response "N" "I" ⟨some ["qa", "qb"], none⟩
          ⟨"cn", "cp", "jp", "in_progress", ["qa", "qb"], [], none⟩ (some "u") =
        .ok (cache2, itv2, out) ∧
      itv2.responses = [⟨"qa", some "u"⟩] ∧
      (out = next_question_directive "N" "I" "qb" ∨ out = thank_you_directive) ∧
      out ≠ apology_directive :=
  c10_missing_cursor_defaults_zero "N" "I" ⟨some ["qa", "qb"], none⟩
    ⟨"cn", "cp", "jp", "in_progress", ["qa", "qb"], [], none⟩
    (some "u") "qa" ["qb"] rfl rfl
